import Mathlib

/-!
Verification of the ArtisanMarket backend core: cart store, checkout saga,
cache-key fingerprinting, semantic-search caching, and cache-aside product
reads.

Shallow embedding of the following source files:
- `src/db/redis_client.py` — cart hash operations, TTL handling, counters;
- `src/services/cart_service.py` — CartService validation and the checkout
  saga `convert_cart_to_order`;
- `src/db/postgres_client.py` — transactional semantics of `get_cursor`
  (commit on success, rollback and re-raise on any exception);
- `src/services/search_service.py` — `_generate_cache_key` and
  `natural_language_search`;
- `src/services/product_service.py` — `get_product_from_db` and
  `get_product_by_id`;
- `src/config.py` — TTL constants.

Store keys are modelled with association lists; external stores (Postgres,
Neo4j, Redis) are modelled as explicit state, with failure injection
parameters standing for exceptions raised by the store drivers. Python
numbers in the money paths are modelled by `PyNum`, which tracks whether a
value is carried as a database DECIMAL or as a Python binary float; the
numeric value itself is kept exact as a rational, since the claims under
study concern representation and algebra, not rounding.
-/

namespace ArtisanMarket

/-! ### Association-list helpers

Redis hashes, the Redis keyspace, the Postgres `products` table and the
Python dicts in the services are all finite keyed collections; we model
them as association lists with the three primitives below. `setEntry`
overwrites in place (preserving position, as Python dicts and Redis hashes
do) or appends a fresh binding at the end. -/

def setEntry {β : Type} : List (String × β) → String → β → List (String × β)
  | [], k, v => [(k, v)]
  | (k', w) :: rest, k, v =>
      if k' = k then (k, v) :: rest else (k', w) :: setEntry rest k v

def delEntry {β : Type} (xs : List (String × β)) (k : String) : List (String × β) :=
  xs.filter (fun kv => kv.1 ≠ k)

def lookupEntry {β : Type} (xs : List (String × β)) (k : String) : Option β :=
  (xs.find? (fun kv => kv.1 = k)).map (·.2)

/-! ### Configuration constants (`src/config.py`) -/

/-- Cache TTL in seconds (`CACHE_TTL = 3600`). -/
def CACHE_TTL : Int := 3600

/-- Cart TTL in seconds (`CART_TTL = 86400`). -/
def CART_TTL : Int := 86400

/-! ### Redis cart model (`src/db/redis_client.py`)

A Redis hash field holds a string; the cart code only ever writes decimal
representations of integers, but `get_cart` defensively skips fields that
do not parse as integers. We model a stored field value as either an
integer-representable string (`RVal.int`) or some other string
(`RVal.raw`). -/

inductive RVal where
  | int (n : Int)
  | raw (s : String)
deriving DecidableEq, Repr

/-- One Redis hash key: its fields plus its expiry (none = no TTL set). -/
structure RHash where
  fields : List (String × RVal)
  ttl : Option Int
deriving DecidableEq, Repr

/-- The cart keyspace: `cart:{user_id}` keys, indexed here by user id. -/
structure RedisState where
  carts : List (String × RHash)
deriving DecidableEq, Repr

def getHash (st : RedisState) (u : String) : Option RHash :=
  lookupEntry st.carts u

def setHash (st : RedisState) (u : String) (h : RHash) : RedisState :=
  ⟨setEntry st.carts u h⟩

def delKey (st : RedisState) (u : String) : RedisState :=
  ⟨delEntry st.carts u⟩

/-- TTL currently attached to the cart key of user `u`. -/
def ttlOf (st : RedisState) (u : String) : Option Int :=
  (getHash st u).bind (·.ttl)

/-- Models `client.hincrby(cart_key, product_id, quantity)`: creates the key
and/or field as needed; returns none (a redis error) when the stored field
value is not an integer string. -/
def hincrby (st : RedisState) (u p : String) (q : Int) : Option RedisState :=
  let h := (getHash st u).getD ⟨[], none⟩
  match lookupEntry h.fields p with
  | none => some (setHash st u ⟨setEntry h.fields p (.int q), h.ttl⟩)
  | some (.int n) => some (setHash st u ⟨setEntry h.fields p (.int (n + q)), h.ttl⟩)
  | some (.raw _) => none

/-- Models `client.expire(cart_key, ttl)`: a no-op when the key is absent. -/
def expire (st : RedisState) (u : String) (t : Int) : RedisState :=
  match getHash st u with
  | none => st
  | some h => setHash st u ⟨h.fields, some t⟩

/-- Models `client.hset(cart_key, product_id, str(quantity))`. -/
def hset (st : RedisState) (u p : String) (v : RVal) : RedisState :=
  let h := (getHash st u).getD ⟨[], none⟩
  setHash st u ⟨setEntry h.fields p v, h.ttl⟩

/-- Models `client.hdel(cart_key, product_id)`; Redis removes a hash key
entirely once its last field is deleted. -/
def hdel (st : RedisState) (u p : String) : RedisState :=
  match getHash st u with
  | none => st
  | some h =>
    let fs := delEntry h.fields p
    if fs.isEmpty then delKey st u else setHash st u ⟨fs, h.ttl⟩

/-- Models `client.hgetall(cart_key)`. -/
def hgetall (st : RedisState) (u : String) : List (String × RVal) :=
  ((getHash st u).map (·.fields)).getD []

/-- RedisClient.add_to_cart: `hincrby` then `expire(cart_key, CART_TTL)`. -/
def redis_add_to_cart (st : RedisState) (u p : String) (q : Int) : Option RedisState :=
  (hincrby st u p q).map (fun st1 => expire st1 u CART_TTL)

/-- RedisClient.update_cart_item_quantity: `hset` then `expire(cart_key, CART_TTL)`. -/
def redis_update_cart_item_quantity (st : RedisState) (u p : String) (q : Int) : RedisState :=
  expire (hset st u p (.int q)) u CART_TTL

/-- RedisClient.remove_from_cart: `hdel` only — no `expire` call. -/
def redis_remove_from_cart (st : RedisState) (u p : String) : RedisState :=
  hdel st u p

/-- RedisClient.get_cart: read the whole hash, keep the fields whose value
parses as an integer, and skip the rest with a warning. -/
def redis_get_cart (st : RedisState) (u : String) : List (String × Int) :=
  (hgetall st u).filterMap (fun kv =>
    match kv.2 with
    | .int n => some (kv.1, n)
    | .raw _ => none)

/-- RedisClient.clear_cart: `client.delete(cart_key)`. -/
def redis_clear_cart (st : RedisState) (u : String) : RedisState :=
  delKey st u

/-! ### Cart service (`src/services/cart_service.py`) -/

/-- Errors surfaced by the cart and checkout paths. `invalidQuantity` and
`emptyCart` and `productsMissing` are the ValueError cases of the source;
`checkoutFailed` is a Postgres transaction abort; `storeUnavailable` is an
exception from a store driver (Redis or Neo4j). -/
inductive CartErr where
  | invalidQuantity
  | emptyCart
  | productsMissing
  | checkoutFailed
  | storeUnavailable
deriving DecidableEq, Repr

/-- CartService.add_to_cart: rejects non-positive quantities before touching
the store, then delegates to the Redis client. -/
def add_to_cart (st : RedisState) (u p : String) (q : Int) : Except CartErr RedisState :=
  if q ≤ 0 then .error .invalidQuantity
  else
    match redis_add_to_cart st u p q with
    | some st1 => .ok st1
    | none => .error .storeUnavailable

/-- CartService.update_item_quantity: rejects negative quantities; quantity 0
delegates to remove_from_cart; otherwise sets the field absolutely. -/
def update_item_quantity (st : RedisState) (u p : String) (q : Int) : Except CartErr RedisState :=
  if q < 0 then .error .invalidQuantity
  else if q = 0 then .ok (redis_remove_from_cart st u p)
  else .ok (redis_update_cart_item_quantity st u p q)

/-- CartService.remove_from_cart. -/
def remove_from_cart (st : RedisState) (u p : String) : RedisState :=
  redis_remove_from_cart st u p

/-- CartService.get_cart. -/
def get_cart (st : RedisState) (u : String) : List (String × Int) :=
  redis_get_cart st u

/-- CartService.clear_cart. -/
def clear_cart (st : RedisState) (u : String) : RedisState :=
  redis_clear_cart st u

/-- States of the cart keyspace reachable through the CartService API from
an empty store. -/
inductive Reachable : RedisState → Prop where
  | init : Reachable ⟨[]⟩
  | add {st st' : RedisState} {u p : String} {q : Int} :
      Reachable st → add_to_cart st u p q = .ok st' → Reachable st'
  | update {st st' : RedisState} {u p : String} {q : Int} :
      Reachable st → update_item_quantity st u p q = .ok st' → Reachable st'
  | remove {st : RedisState} (u p : String) :
      Reachable st → Reachable (remove_from_cart st u p)
  | clear {st : RedisState} (u : String) :
      Reachable st → Reachable (clear_cart st u)

/-- Well-formedness of the cart keyspace: every stored field is an integer
string with value at least 1. -/
def CartWF (st : RedisState) : Prop :=
  ∀ uh ∈ st.carts, ∀ kv ∈ uh.2.fields, ∃ n : Int, kv.2 = .int n ∧ 1 ≤ n

/-- Concrete reachable state for the C8 witness: the cart of user u1 after
add(u1, p1, 3) and then add(u1, p1, 2). -/
def stW : RedisState := ⟨[("u1", ⟨[("p1", .int 5)], some 86400⟩)]⟩

/-- Concrete state for the C9 counterexample: a cart key for user u1 whose
remaining TTL has decayed to 5 seconds. -/
def stC9 : RedisState := ⟨[("u1", ⟨[("p1", .int 2), ("p2", .int 1)], some 5⟩)]⟩

/-- Concrete state after add(u1, p3, 2) on stC9: the TTL is refreshed. -/
def stC9add : RedisState :=
  ⟨[("u1", ⟨[("p1", .int 2), ("p2", .int 1), ("p3", .int 2)], some CART_TTL⟩)]⟩


/-! ### Python number representation on the money paths

The products table stores price as DECIMAL(10, 2); the services convert
fetched prices with the builtin float and accumulate totals starting from
the float literal 0.0. `PyNum` records which representation a value is
carried in, keeping the numeric value exact. -/

inductive PyNum where
  | decimal (q : ℚ)
  | float (q : ℚ)
deriving DecidableEq, Repr

def PyNum.val : PyNum → ℚ
  | .decimal q => q
  | .float q => q

def PyNum.isFloat : PyNum → Bool
  | .decimal _ => false
  | .float _ => true

/-- Models the Python conversion float(x). -/
def PyNum.toFloat (x : PyNum) : PyNum := .float x.val

/-- Python addition: Decimal + Decimal stays Decimal; any float operand
makes the result a float. -/
def PyNum.add : PyNum → PyNum → PyNum
  | .decimal a, .decimal b => .decimal (a + b)
  | a, b => .float (a.val + b.val)

/-- Python multiplication by an int quantity keeps the representation. -/
def PyNum.mulInt : PyNum → Int → PyNum
  | .decimal a, n => .decimal (a * n)
  | .float a, n => .float (a * n)

/-! ### Checkout saga (CartService.convert_cart_to_order)

State touched by the saga: the Redis cart keyspace, the Postgres products,
orders and order_items tables, and the Neo4j PURCHASED edges. The Postgres
transaction of get_cursor commits on success and rolls back on any
exception, so an aborted transaction leaves the relational state untouched.
`pgFail` injects a Postgres failure inside the transaction (its writes are
rolled back); `neoFailAt = some k` injects a Neo4j driver exception on the
(k+1)-st add_purchase call. -/

/-- A row of the orders table. -/
structure OrderRow where
  id : String
  user_id : String
  order_date : String
  total_price : PyNum
  status : String
deriving DecidableEq, Repr

/-- A row of the order_items table. -/
structure OrderItemRow where
  order_id : String
  product_id : String
  quantity : Int
  price_at_purchase : PyNum
deriving DecidableEq, Repr

/-- A Neo4j (User)-[PURCHASED \x7bquantity, date\x7d]->(Product) edge. -/
structure PurchaseEdge where
  user_id : String
  product_id : String
  quantity : Int
  date : String
deriving DecidableEq, Repr

/-- The dict returned by convert_cart_to_order on success. -/
structure CheckoutResult where
  order_id : String
  total_amount : PyNum
  items_count : Nat
deriving DecidableEq, Repr

/-- All state the checkout saga touches. `products` is the Postgres table
id → price, the price being an exact DECIMAL(10, 2). -/
structure MarketState where
  redis : RedisState
  products : List (String × ℚ)
  orders : List OrderRow
  order_items : List OrderItemRow
  purchases : List PurchaseEdge
deriving DecidableEq, Repr

/-- Models SELECT id, price FROM products WHERE id = ANY(ids) followed by
the dict comprehension mapping row id to float(row price). -/
def fetch_product_prices (products : List (String × ℚ)) (ids : List String) :
    List (String × PyNum) :=
  (products.filter (fun r => r.1 ∈ ids)).map
    (fun r => (r.1, PyNum.toFloat (.decimal r.2)))

/-- Price looked up in the product_prices dict. The source indexes the dict
directly; the default is unreachable in the saga because the length check
has already passed. -/
def price_of (pp : List (String × PyNum)) (pid : String) : PyNum :=
  (lookupEntry pp pid).getD (.float 0)

/-- The rows accumulated in order_items_to_insert inside the saga loop. -/
def order_items_to_insert (pp : List (String × PyNum)) (order_id : String)
    (cart : List (String × Int)) : List OrderItemRow :=
  cart.map (fun pi => ⟨order_id, pi.1, pi.2, price_of pp pi.1⟩)

/-- The running total: total_amount = 0.0, then
total_amount += price * quantity per cart line. -/
def total_amount_of (pp : List (String × PyNum)) (cart : List (String × Int)) : PyNum :=
  cart.foldl (fun acc pi => acc.add ((price_of pp pi.1).mulInt pi.2)) (.float 0)

/-- The PURCHASED edges written by the step-5 loop over cart lines. -/
def purchase_edges (user_id order_date : String) (cart : List (String × Int)) :
    List PurchaseEdge :=
  cart.map (fun pi => ⟨user_id, pi.1, pi.2, order_date⟩)

/-- CartService.convert_cart_to_order. Order id and order date are passed in
(uuid4 and datetime.now of the source are external inputs). Step order
follows the source: read cart; empty-cart check; price fetch, length check
and the Order and OrderItem inserts inside one transaction (rolled back
wholesale on pgFail or on the length-check ValueError); then the Neo4j
loop — which in the source has no exception handler, so a driver failure
there propagates after the commit; then clear_cart and the result dict. -/
def convert_cart_to_order (pgFail : Bool) (neoFailAt : Option Nat)
    (st : MarketState) (user_id order_id order_date : String) :
    MarketState × Except CartErr CheckoutResult :=
  let cart := redis_get_cart st.redis user_id
  if cart.isEmpty then (st, .error .emptyCart)
  else
    let product_ids := cart.map (·.1)
    let product_prices := fetch_product_prices st.products product_ids
    if product_prices.length ≠ product_ids.length then (st, .error .productsMissing)
    else if pgFail then (st, .error .checkoutFailed)
    else
      let st1 : MarketState :=
        { st with
          orders := st.orders ++
            [⟨order_id, user_id, order_date, total_amount_of product_prices cart,
              "COMPLETED"⟩],
          order_items := st.order_items ++
            order_items_to_insert product_prices order_id cart }
      match neoFailAt with
      | some k =>
        if k < cart.length then
          ({ st1 with purchases := st1.purchases ++
              purchase_edges user_id order_date (cart.take k) },
           .error .storeUnavailable)
        else
          ({ st1 with
              purchases := st1.purchases ++ purchase_edges user_id order_date cart,
              redis := redis_clear_cart st1.redis user_id },
           .ok ⟨order_id, total_amount_of product_prices cart, cart.length⟩)
      | none =>
          ({ st1 with
              purchases := st1.purchases ++ purchase_edges user_id order_date cart,
              redis := redis_clear_cart st1.redis user_id },
           .ok ⟨order_id, total_amount_of product_prices cart, cart.length⟩)

/-- Concrete checkout state: cart \x7bP1: 2, P2: 1\x7d, P1 costs 10.00 and
P2 costs 5.00 in the products table. -/
def stC4 : MarketState :=
  { redis := ⟨[("u1", ⟨[("P1", .int 2), ("P2", .int 1)], some 86400⟩)]⟩,
    products := [("P1", 10), ("P2", 5)],
    orders := [],
    order_items := [],
    purchases := [] }

/-- The market state after checkout succeeds on stC4 with order id o1 and
order date d1: the cart key is deleted, one order and two item rows exist,
and the two purchase edges were written. -/
def stC4after : MarketState :=
  { redis := ⟨[]⟩,
    products := [("P1", 10), ("P2", 5)],
    orders := [⟨"o1", "u1", "d1", .float 25, "COMPLETED"⟩],
    order_items := [⟨"o1", "P1", 2, .float 10⟩, ⟨"o1", "P2", 1, .float 5⟩],
    purchases := [⟨"u1", "P1", 2, "d1"⟩, ⟨"u1", "P2", 1, "d1"⟩] }

/-- Same cart as stC4 but the products table lacks P2. -/
def stC3 : MarketState :=
  { redis := ⟨[("u1", ⟨[("P1", .int 2), ("P2", .int 1)], some 86400⟩)]⟩,
    products := [("P1", 10)],
    orders := [],
    order_items := [],
    purchases := [] }

/-- The market state after checkout on stC4 with a Neo4j failure on the
first PurchaseEdge write: the transaction is committed, no edges exist, the
cart is untouched. -/
def stC4neo : MarketState :=
  { redis := ⟨[("u1", ⟨[("P1", .int 2), ("P2", .int 1)], some 86400⟩)]⟩,
    products := [("P1", 10), ("P2", 5)],
    orders := [⟨"o1", "u1", "d1", .float 25, "COMPLETED"⟩],
    order_items := [⟨"o1", "P1", 2, .float 10⟩, ⟨"o1", "P2", 1, .float 5⟩],
    purchases := [] }

/-! ### Product reads (`src/services/product_service.py`) -/

/-- A products row as returned to callers; only the fields the claims
concern (identity and price) are modelled. -/
structure ProductRow where
  id : String
  price : PyNum
deriving DecidableEq, Repr

/-- get_product_from_db: SELECT * FROM products WHERE id = %s, then the
price field is converted with float(...) when the row exists. -/
def get_product_from_db (products : List (String × ℚ)) (pid : String) : Option ProductRow :=
  (lookupEntry products pid).map (fun q => ⟨pid, PyNum.toFloat (.decimal q)⟩)

/-- RedisClient.increment_hot_product_score: ZINCRBY on the hot_products
sorted set, creating an absent member at score 0 first. -/
def zincrby (scores : List (String × Int)) (member : String) (k : Int) : List (String × Int) :=
  match lookupEntry scores member with
  | none => setEntry scores member k
  | some n => setEntry scores member (n + k)

/-- State touched by get_product_by_id: the products table, the product
cache keys (product:\x7bid\x7d, indexed here by id), the hot-products
ranking, the Neo4j VIEWED edges, and a counter of database queries issued. -/
structure ProductReadState where
  products : List (String × ℚ)
  cache : List (String × ProductRow)
  hot_scores : List (String × Int)
  views : List (String × String)
  db_queries : Nat
deriving DecidableEq, Repr

/-- get_product_by_id: check the cache (a cached product dict is nonempty,
hence truthy); on miss query the database and cache the row only when it
exists; then, only if a product was found, increment its hot score and add
the VIEWED edge when a user id was given. -/
def get_product_by_id (st : ProductReadState) (pid : String) (uid : Option String) :
    ProductReadState × Option ProductRow :=
  match lookupEntry st.cache pid with
  | some cached =>
      ({ st with
          hot_scores := zincrby st.hot_scores pid 1,
          views := match uid with
                   | some u => st.views ++ [(u, pid)]
                   | none => st.views },
       some cached)
  | none =>
      match get_product_from_db st.products pid with
      | some row =>
          ({ st with
              db_queries := st.db_queries + 1,
              cache := setEntry st.cache pid row,
              hot_scores := zincrby st.hot_scores pid 1,
              views := match uid with
                       | some u => st.views ++ [(u, pid)]
                       | none => st.views },
           some row)
      | none => ({ st with db_queries := st.db_queries + 1 }, none)

/-- Concrete product-read state for the C10 witness: one product P1, empty
cache. -/
def stP10 : ProductReadState :=
  { products := [("P1", 10)], cache := [], hot_scores := [], views := [], db_queries := 0 }

/-! ### Cache-key fingerprinting and semantic search
(`src/services/search_service.py`) -/

/-- Lexicographic order on (name, value) pairs — the order Python sorted()
uses on the 2-tuples of params.items(). -/
def pairLe (a b : String × String) : Prop :=
  a.1 < b.1 ∨ (a.1 = b.1 ∧ a.2 ≤ b.2)

instance : DecidableRel pairLe := fun a b => by
  unfold pairLe
  exact inferInstance

instance : IsTotal (String × String) pairLe where
  total a b := by
    rcases lt_trichotomy a.1 b.1 with h | h | h
    · exact Or.inl (Or.inl h)
    · rcases le_total a.2 b.2 with h2 | h2
      · exact Or.inl (Or.inr ⟨h, h2⟩)
      · exact Or.inr (Or.inr ⟨h.symm, h2⟩)
    · exact Or.inr (Or.inl h)

instance : IsTrans (String × String) pairLe where
  trans a b c hab hbc := by
    rcases hab with h1 | ⟨h1, h1'⟩
    · rcases hbc with h2 | ⟨h2, h2'⟩
      · exact Or.inl (lt_trans h1 h2)
      · exact Or.inl (h2 ▸ h1)
    · rcases hbc with h2 | ⟨h2, h2'⟩
      · exact Or.inl (h1 ▸ h2)
      · exact Or.inr ⟨h1.trans h2, le_trans h1' h2'⟩

instance : IsAntisymm (String × String) pairLe where
  antisymm a b hab hba := by
    rcases hab with h1 | ⟨h1, h1'⟩
    · rcases hba with h2 | ⟨h2, h2'⟩
      · exact absurd (lt_trans h1 h2) (lt_irrefl _)
      · exact absurd h1 (by rw [h2]; exact lt_irrefl _)
    · rcases hba with h2 | ⟨h2, h2'⟩
      · exact absurd h2 (by rw [h1]; exact lt_irrefl _)
      · refine Prod.ext_iff.mpr ⟨h1, le_antisymm h1' h2'⟩

/-- SemanticSearchService._generate_cache_key: sorted(params.items()),
join the name=value renditions with the ampersand delimiter, hash, and
prepend the namespace. The digest function (hashlib.md5 hexdigest in the
source) is passed in; the namespace, hardcoded to semantic_search at the
call site, is a parameter here. Python sorted() is modelled by
insertionSort under pairLe: sortedness plus permutation determine the
result uniquely, so any correct sort is the same function. -/
def generate_cache_key (digest : String → String) (ns : String)
    (params : List (String × String)) : String :=
  ns ++ ":" ++ digest (String.intercalate "&"
    ((List.insertionSort pairLe params).map (fun kv => kv.1 ++ "=" ++ kv.2)))

/-- The arguments of natural_language_search. -/
structure SearchParams where
  query : String
  category : Option String
  min_price : Option ℚ
  max_price : Option ℚ
  top_k : Int
deriving DecidableEq, Repr

/-- The search_params dict in insertion order with None values dropped
(active_params in the source); values are rendered to strings as in the
f-string name=value. toString stands for str(value); determinism of the
rendering is all the claims rely on. -/
def active_params (p : SearchParams) : List (String × String) :=
  [("query", p.query)]
    ++ (match p.category with | some c => [("category", c)] | none => [])
    ++ (match p.min_price with | some q => [("min_price", toString q)] | none => [])
    ++ (match p.max_price with | some q => [("max_price", toString q)] | none => [])
    ++ [("top_k", toString p.top_k)]

/-- A row of the pgvector similarity query before post-processing. -/
structure DbRow where
  id : String
  price : ℚ
  similarity : ℚ
deriving DecidableEq, Repr

/-- A result row after post-processing. -/
structure OutRow where
  id : String
  price : PyNum
  similarity : PyNum
deriving DecidableEq, Repr

/-- Post-processing of a fetched row: float conversion guarded by dict
truthiness (if r.get of the field), so a zero price or zero similarity is
left unconverted. -/
def convert_row (r : DbRow) : OutRow :=
  ⟨r.id,
   if r.price = 0 then .decimal r.price else .float r.price,
   if r.similarity = 0 then .decimal r.similarity else .float r.similarity⟩

/-- State touched by natural_language_search: the semantic-search cache
keys, the cache_metrics counters and a counter of Record Store queries. -/
structure SearchState where
  cache : List (String × List OutRow)
  metrics : List (String × Int)
  db_queries : Nat
deriving DecidableEq, Repr

/-- RedisClient.increment_cache_metric: INCR treats an absent key as 0. -/
def increment_cache_metric (xs : List (String × Int)) (name : String) : List (String × Int) :=
  match lookupEntry xs name with
  | none => setEntry xs name 1
  | some n => setEntry xs name (n + 1)

/-- SemanticSearchService.natural_language_search. `digest` models the
hexdigest used in the cache key; `dbq` models the embedding step plus the
pgvector nearest-neighbour query for the given params; the cache stores the
JSON round-trip of the result rows, modelled as the identity on them. On a
hit the hit counter is bumped and the cached rows are returned; on a miss
the miss counter is bumped, the database is queried once, and the result is
cached. -/
def natural_language_search (digest : String → String) (dbq : SearchParams → List DbRow)
    (p : SearchParams) (st : SearchState) : SearchState × List OutRow :=
  match lookupEntry st.cache (generate_cache_key digest "semantic_search" (active_params p)) with
  | some cached =>
      ({ st with metrics := increment_cache_metric st.metrics "semantic_hits" }, cached)
  | none =>
      let results := (dbq p).map convert_row
      ({ st with
          metrics := increment_cache_metric st.metrics "semantic_misses",
          db_queries := st.db_queries + 1,
          cache := setEntry st.cache
            (generate_cache_key digest "semantic_search" (active_params p)) results },
       results)

theorem lookupEntry_setEntry_self {β : Type} (xs : List (String × β)) (k : String) (v : β) :
    lookupEntry (setEntry xs k v) k = some v := by
  induction xs with
  | nil => simp [setEntry, lookupEntry]
  | cons hd tl ih =>
    by_cases h : hd.1 = k
    · simp [setEntry, h, lookupEntry]
    · simpa [setEntry, h, lookupEntry, List.find?] using ih

theorem lookupEntry_setEntry_ne {β : Type} (xs : List (String × β)) (k k' : String) (v : β)
    (h : k ≠ k') : lookupEntry (setEntry xs k v) k' = lookupEntry xs k' := by
  induction xs with
  | nil => simp [setEntry, lookupEntry, List.find?, h]
  | cons hd tl ih =>
    by_cases hh : hd.1 = k
    · simp [setEntry, hh, lookupEntry, List.find?, h, Ne.symm h]
    · simp only [setEntry, hh, if_false, lookupEntry, List.find?]
      by_cases hk' : hd.1 = k'
      · simp [hk']
      · simpa [hk', lookupEntry, List.find?] using ih

theorem lookupEntry_delEntry_self {β : Type} (xs : List (String × β)) (k : String) :
    lookupEntry (delEntry xs k) k = none := by
  induction xs with
  | nil => simp [delEntry, lookupEntry]
  | cons hd tl ih =>
    by_cases h : hd.1 = k
    · simp only [delEntry, List.filter] at ih ⊢
      simpa [h] using ih
    · simp [delEntry, h, List.filter, lookupEntry, List.find?, ih]

theorem mem_setEntry {β : Type} {xs : List (String × β)} {k : String} {v : β}
    {kv : String × β} : kv ∈ setEntry xs k v → kv ∈ xs ∨ kv = (k, v) := by
  induction xs with
  | nil => intro h; simpa [setEntry] using h
  | cons hd tl ih =>
    intro h
    by_cases hh : hd.1 = k
    · simp only [setEntry, hh, if_true, List.mem_cons] at h
      rcases h with h | h
      · right; exact h
      · left; exact List.mem_cons_of_mem _ h
    · simp only [setEntry, hh, if_false, List.mem_cons] at h
      rcases h with h | h
      · left; simp [h]
      · rcases ih h with h' | h'
        · left; exact List.mem_cons_of_mem _ h'
        · right; exact h'

theorem mem_delEntry {β : Type} {xs : List (String × β)} {k : String}
    {kv : String × β} (h : kv ∈ delEntry xs k) : kv ∈ xs :=
  List.mem_of_mem_filter h

theorem lookupEntry_mem {β : Type} {xs : List (String × β)} {k : String} {v : β}
    (h : lookupEntry xs k = some v) : (k, v) ∈ xs := by
  unfold lookupEntry at h
  rcases Option.map_eq_some'.mp h with ⟨kv, hfind, hv⟩
  have hmem := List.mem_of_find?_eq_some hfind
  have hp := List.find?_some hfind
  have hk : kv.1 = k := by simpa using hp
  have : kv = (k, v) := by
    cases kv with
    | mk a b => simp only at hk hv; simp [hk, hv]
  rwa [this] at hmem


/-! ### Shape lemmas for the Redis primitives -/

theorem getHash_setHash_self (st : RedisState) (u : String) (h : RHash) :
    getHash (setHash st u h) u = some h :=
  lookupEntry_setEntry_self _ _ _

theorem getHash_delKey_self (st : RedisState) (u : String) :
    getHash (delKey st u) u = none :=
  lookupEntry_delEntry_self _ _

theorem hset_eq (st : RedisState) (u p : String) (v : RVal) :
    hset st u p v = setHash st u
      ⟨setEntry ((getHash st u).getD ⟨[], none⟩).fields p v,
       ((getHash st u).getD ⟨[], none⟩).ttl⟩ := rfl

theorem hincrby_of_lookup_none {st : RedisState} {u p : String} (q : Int)
    (hl : lookupEntry ((getHash st u).getD ⟨[], none⟩).fields p = none) :
    hincrby st u p q = some (setHash st u
      ⟨setEntry ((getHash st u).getD ⟨[], none⟩).fields p (.int q),
       ((getHash st u).getD ⟨[], none⟩).ttl⟩) := by
  simp only [hincrby, hl]

theorem hincrby_of_lookup_int {st : RedisState} {u p : String} {n : Int} (q : Int)
    (hl : lookupEntry ((getHash st u).getD ⟨[], none⟩).fields p = some (.int n)) :
    hincrby st u p q = some (setHash st u
      ⟨setEntry ((getHash st u).getD ⟨[], none⟩).fields p (.int (n + q)),
       ((getHash st u).getD ⟨[], none⟩).ttl⟩) := by
  simp only [hincrby, hl]

theorem hincrby_of_lookup_raw {st : RedisState} {u p : String} {s : String} (q : Int)
    (hl : lookupEntry ((getHash st u).getD ⟨[], none⟩).fields p = some (.raw s)) :
    hincrby st u p q = none := by
  simp only [hincrby, hl]

theorem hdel_of_none {st : RedisState} {u : String} (p : String)
    (hg : getHash st u = none) : hdel st u p = st := by
  simp only [hdel, hg]

theorem hdel_of_some_empty {st : RedisState} {u p : String} {h : RHash}
    (hg : getHash st u = some h) (he : (delEntry h.fields p).isEmpty) :
    hdel st u p = delKey st u := by
  simp only [hdel, hg, he, if_true]

theorem hdel_of_some_nonempty {st : RedisState} {u p : String} {h : RHash}
    (hg : getHash st u = some h) (he : ¬ (delEntry h.fields p).isEmpty) :
    hdel st u p = setHash st u ⟨delEntry h.fields p, h.ttl⟩ := by
  simp only [hdel, hg]
  rw [if_neg he]

theorem hgetall_of_none {st : RedisState} {u : String} (hg : getHash st u = none) :
    hgetall st u = [] := by
  simp only [hgetall, hg]
  rfl

theorem hgetall_of_some {st : RedisState} {u : String} {h : RHash}
    (hg : getHash st u = some h) : hgetall st u = h.fields := by
  simp only [hgetall, hg]
  rfl

theorem ttlOf_expire_of_key {st : RedisState} {u : String} {h : RHash} (t : Int)
    (hg : getHash st u = some h) : ttlOf (expire st u t) u = some t := by
  simp only [expire, hg, ttlOf, getHash_setHash_self]
  rfl

/-- Any successful hincrby rewrites exactly the hash of user u. -/
theorem hincrby_shape {st st' : RedisState} {u p : String} {q : Int}
    (hrun : hincrby st u p q = some st') :
    ∃ fs t0, st' = setHash st u ⟨fs, t0⟩ := by
  cases hl : lookupEntry ((getHash st u).getD ⟨[], none⟩).fields p with
  | none =>
    rw [hincrby_of_lookup_none q hl] at hrun
    exact ⟨_, _, (Option.some.injEq _ _).mp hrun |>.symm⟩
  | some v =>
    cases v with
    | int n =>
      rw [hincrby_of_lookup_int q hl] at hrun
      exact ⟨_, _, (Option.some.injEq _ _).mp hrun |>.symm⟩
    | raw s =>
      rw [hincrby_of_lookup_raw q hl] at hrun
      cases hrun

/-! ### Cart invariants (claims C8, C9) -/

theorem CartWF.fields_wf {st : RedisState} (hwf : CartWF st) {u : String} {h : RHash}
    (hg : getHash st u = some h) :
    ∀ kv ∈ h.fields, ∃ n : Int, kv.2 = .int n ∧ 1 ≤ n :=
  fun kv hkv => hwf (u, h) (lookupEntry_mem hg) kv hkv

theorem CartWF.getD_fields_wf {st : RedisState} (hwf : CartWF st) (u : String) :
    ∀ kv ∈ ((getHash st u).getD ⟨[], none⟩).fields,
      ∃ n : Int, kv.2 = .int n ∧ 1 ≤ n := by
  cases hg : getHash st u with
  | none => simp
  | some h => simpa using fun kv hkv => hwf.fields_wf hg kv hkv

theorem CartWF_setHash {st : RedisState} {u : String} {h : RHash} (hwf : CartWF st)
    (hh : ∀ kv ∈ h.fields, ∃ n : Int, kv.2 = .int n ∧ 1 ≤ n) :
    CartWF (setHash st u h) := by
  intro uh hmem kv hkv
  rcases mem_setEntry hmem with hm | he
  · exact hwf uh hm kv hkv
  · subst he; exact hh kv hkv

theorem CartWF_delKey {st : RedisState} {u : String} (hwf : CartWF st) :
    CartWF (delKey st u) :=
  fun uh hmem kv hkv => hwf uh (mem_delEntry hmem) kv hkv

theorem CartWF_expire {st : RedisState} {u : String} {t : Int} (hwf : CartWF st) :
    CartWF (expire st u t) := by
  unfold expire
  cases hg : getHash st u with
  | none => exact hwf
  | some h => exact CartWF_setHash hwf (fun kv hkv => hwf.fields_wf hg kv hkv)

theorem CartWF_hincrby {st st' : RedisState} {u p : String} {q : Int} (hwf : CartWF st)
    (hq : 1 ≤ q) (hrun : hincrby st u p q = some st') : CartWF st' := by
  have hfs := hwf.getD_fields_wf u
  cases hl : lookupEntry ((getHash st u).getD ⟨[], none⟩).fields p with
  | none =>
    rw [hincrby_of_lookup_none q hl] at hrun
    replace hrun := ((Option.some.injEq _ _).mp hrun).symm
    subst hrun
    refine CartWF_setHash hwf ?_
    intro kv hkv
    rcases mem_setEntry hkv with hm | he
    · exact hfs kv hm
    · exact ⟨q, by simp [he], hq⟩
  | some v =>
    cases v with
    | int n =>
      rw [hincrby_of_lookup_int q hl] at hrun
      replace hrun := ((Option.some.injEq _ _).mp hrun).symm
      subst hrun
      refine CartWF_setHash hwf ?_
      intro kv hkv
      rcases mem_setEntry hkv with hm | he
      · exact hfs kv hm
      · have hn : 1 ≤ n := by
          rcases hfs (p, .int n) (lookupEntry_mem hl) with ⟨m, hm1, hm2⟩
          simp only [RVal.int.injEq] at hm1
          omega
        exact ⟨n + q, by simp [he], by omega⟩
    | raw s =>
      rw [hincrby_of_lookup_raw q hl] at hrun
      cases hrun

theorem CartWF_hset_pos {st : RedisState} {u p : String} {q : Int} (hwf : CartWF st)
    (hq : 1 ≤ q) : CartWF (hset st u p (.int q)) := by
  rw [hset_eq]
  refine CartWF_setHash hwf ?_
  intro kv hkv
  rcases mem_setEntry hkv with hm | he
  · exact hwf.getD_fields_wf u kv hm
  · exact ⟨q, by simp [he], hq⟩

theorem CartWF_hdel {st : RedisState} {u p : String} (hwf : CartWF st) :
    CartWF (hdel st u p) := by
  cases hg : getHash st u with
  | none => rw [hdel_of_none p hg]; exact hwf
  | some h =>
    by_cases he : (delEntry h.fields p).isEmpty
    · rw [hdel_of_some_empty hg he]; exact CartWF_delKey hwf
    · rw [hdel_of_some_nonempty hg he]
      exact CartWF_setHash hwf (fun kv hkv => hwf.fields_wf hg kv (mem_delEntry hkv))

/-- Every state reachable through the CartService API is well formed: all
stored cart fields are integer strings with value at least 1. -/
theorem Reachable.cartWF {st : RedisState} (hst : Reachable st) : CartWF st := by
  induction hst with
  | init => intro uh hmem; simp at hmem
  | add hr hok ih =>
    rename_i st st' u p q
    unfold add_to_cart at hok
    by_cases hq : q ≤ 0
    · rw [if_pos hq] at hok; cases hok
    · rw [if_neg hq] at hok
      cases hrun : redis_add_to_cart st u p q with
      | none => rw [hrun] at hok; cases hok
      | some st1 =>
        rw [hrun] at hok
        replace hok := (Except.ok.injEq _ _).mp hok
        subst hok
        unfold redis_add_to_cart at hrun
        rcases Option.map_eq_some'.mp hrun with ⟨st2, hinc, hexp⟩
        subst hexp
        exact CartWF_expire (CartWF_hincrby ih (by omega) hinc)
  | update hr hok ih =>
    rename_i st st' u p q
    unfold update_item_quantity at hok
    by_cases hq : q < 0
    · rw [if_pos hq] at hok; cases hok
    · rw [if_neg hq] at hok
      by_cases hq0 : q = 0
      · rw [if_pos hq0] at hok
        replace hok := (Except.ok.injEq _ _).mp hok
        subst hok
        exact CartWF_hdel ih
      · rw [if_neg hq0] at hok
        replace hok := (Except.ok.injEq _ _).mp hok
        subst hok
        exact CartWF_expire (CartWF_hset_pos ih (by omega))
  | remove u p hr ih => exact CartWF_hdel ih
  | clear u hr ih => exact CartWF_delKey ih

theorem not_mem_get_cart_hdel (st : RedisState) (u p : String) (q : Int) :
    (p, q) ∉ redis_get_cart (hdel st u p) u := by
  intro hmem
  unfold redis_get_cart at hmem
  rcases List.mem_filterMap.mp hmem with ⟨kv, hkv, hval⟩
  have hp : kv.1 = p := by
    cases h2 : kv.2 with
    | int n =>
      rw [h2] at hval
      simp only [Option.some.injEq, Prod.mk.injEq] at hval
      exact hval.1
    | raw s => rw [h2] at hval; cases hval
  cases hg : getHash st u with
  | none =>
    rw [hdel_of_none p hg, hgetall_of_none hg] at hkv
    cases hkv
  | some h =>
    by_cases he : (delEntry h.fields p).isEmpty
    · rw [hdel_of_some_empty hg he,
        hgetall_of_none (getHash_delKey_self st u)] at hkv
      cases hkv
    · rw [hdel_of_some_nonempty hg he,
        hgetall_of_some (getHash_setHash_self st u _)] at hkv
      have hf := List.of_mem_filter hkv
      rw [hp] at hf
      simp at hf

theorem mem_get_cart_wf {st : RedisState} (hwf : CartWF st) {u p : String} {q : Int}
    (hmem : (p, q) ∈ get_cart st u) : 1 ≤ q := by
  unfold get_cart redis_get_cart at hmem
  rcases List.mem_filterMap.mp hmem with ⟨kv, hkv, hval⟩
  cases hg : getHash st u with
  | none => rw [hgetall_of_none hg] at hkv; cases hkv
  | some h =>
    rw [hgetall_of_some hg] at hkv
    rcases hwf.fields_wf hg kv hkv with ⟨n, hn1, hn2⟩
    rw [hn1] at hval
    simp only [Option.some.injEq, Prod.mk.injEq] at hval
    omega

/-- C8: cart quantities are always at least 1. Part 1: CartService.add_to_cart
rejects a non-positive quantity with a validation error before any store
write. Part 2: update_item_quantity with quantity 0 removes the field, so a
subsequent get_cart does not contain the product. Part 3: on every state
reachable through the service API, get_cart returns only entries whose
quantity is an integer of at least 1 (entries that do not parse as integers
are already skipped by get_cart itself). -/
theorem cart_quantities_always_positive (st : RedisState) (hst : Reachable st) :
    (∀ (st0 : RedisState) (u p : String) (q : Int), q ≤ 0 →
        add_to_cart st0 u p q = .error .invalidQuantity)
    ∧ (∀ (st0 st' : RedisState) (u p : String),
        update_item_quantity st0 u p 0 = .ok st' →
        ∀ q : Int, (p, q) ∉ get_cart st' u)
    ∧ (∀ (u p : String) (q : Int), (p, q) ∈ get_cart st u → 1 ≤ q) := by
  refine ⟨?_, ?_, ?_⟩
  · intro st0 u p q hq
    simp [add_to_cart, hq]
  · intro st0 st' u p hok q
    unfold update_item_quantity at hok
    rw [if_neg (lt_irrefl 0), if_pos rfl] at hok
    replace hok := (Except.ok.injEq _ _).mp hok
    subst hok
    exact not_mem_get_cart_hdel st0 u p q
  · intro u p q hmem
    exact mem_get_cart_wf hst.cartWF hmem


theorem stW_reachable : Reachable stW :=
  @Reachable.add ⟨[("u1", ⟨[("p1", .int 3)], some 86400⟩)]⟩ stW "u1" "p1" 2
    (@Reachable.add ⟨[]⟩ ⟨[("u1", ⟨[("p1", .int 3)], some 86400⟩)]⟩ "u1" "p1" 3
      Reachable.init (by rfl))
    (by rfl)

theorem cart_quantities_always_positive_witness :
    Reachable stW ∧
    ((∀ (st0 : RedisState) (u p : String) (q : Int), q ≤ 0 →
        add_to_cart st0 u p q = .error .invalidQuantity)
      ∧ (∀ (st0 st' : RedisState) (u p : String),
          update_item_quantity st0 u p 0 = .ok st' →
          ∀ q : Int, (p, q) ∉ get_cart st' u)
      ∧ (∀ (u p : String) (q : Int), (p, q) ∈ get_cart stW u → 1 ≤ q)) :=
  ⟨stW_reachable, cart_quantities_always_positive stW stW_reachable⟩

/-- C9 counterexample: the claim says every cart mutation, including remove,
refreshes the TTL of the cart key to the full cart lifetime. But
CartService.remove_from_cart calls hdel without expire, so on a key whose
TTL has decayed to 5 seconds the TTL stays 5 instead of CART_TTL. -/
theorem cart_ttl_refresh_counterexample :
    ttlOf (remove_from_cart stC9 "u1" "p1") "u1" = some 5 ∧
    ¬ ttlOf (remove_from_cart stC9 "u1" "p1") "u1" = some CART_TTL := by
  constructor
  · rfl
  · intro h
    rw [show ttlOf (remove_from_cart stC9 "u1" "p1") "u1" = some 5 from rfl] at h
    simp [CART_TTL] at h

/-- C9 amended: add and setQuantity (with a positive quantity) refresh the
cart key TTL to CART_TTL; remove never touches the expiry — it either
leaves the TTL unchanged or deletes the whole key (when the last field
goes, Redis drops the key and its TTL with it); setQuantity 0 delegates
to remove and so also does not refresh. -/
theorem cart_ttl_refresh_amended :
    (∀ (st st' : RedisState) (u p : String) (q : Int),
        add_to_cart st u p q = .ok st' → ttlOf st' u = some CART_TTL)
    ∧ (∀ (st st' : RedisState) (u p : String) (q : Int), 1 ≤ q →
        update_item_quantity st u p q = .ok st' → ttlOf st' u = some CART_TTL)
    ∧ (∀ (st : RedisState) (u p : String),
        ttlOf (remove_from_cart st u p) u = ttlOf st u ∨
        ttlOf (remove_from_cart st u p) u = none) := by
  refine ⟨?_, ?_, ?_⟩
  · intro st st' u p q hok
    unfold add_to_cart at hok
    by_cases hq : q ≤ 0
    · rw [if_pos hq] at hok; cases hok
    · rw [if_neg hq] at hok
      cases hrun : redis_add_to_cart st u p q with
      | none => rw [hrun] at hok; cases hok
      | some st1 =>
        rw [hrun] at hok
        replace hok := (Except.ok.injEq _ _).mp hok
        subst hok
        unfold redis_add_to_cart at hrun
        rcases Option.map_eq_some'.mp hrun with ⟨st2, hinc, hexp⟩
        subst hexp
        rcases hincrby_shape hinc with ⟨fs, t0, hst2⟩
        subst hst2
        exact ttlOf_expire_of_key CART_TTL (getHash_setHash_self st u _)
  · intro st st' u p q hq hok
    unfold update_item_quantity at hok
    rw [if_neg (by omega : ¬ q < 0), if_neg (by omega : ¬ q = 0)] at hok
    replace hok := (Except.ok.injEq _ _).mp hok
    subst hok
    unfold redis_update_cart_item_quantity
    rw [hset_eq]
    exact ttlOf_expire_of_key CART_TTL (getHash_setHash_self st u _)
  · intro st u p
    unfold remove_from_cart redis_remove_from_cart
    cases hg : getHash st u with
    | none => left; rw [hdel_of_none p hg]
    | some h =>
      by_cases he : (delEntry h.fields p).isEmpty
      · right
        rw [hdel_of_some_empty hg he]
        unfold ttlOf
        rw [getHash_delKey_self st u]
        rfl
      · left
        rw [hdel_of_some_nonempty hg he]
        unfold ttlOf
        rw [getHash_setHash_self st u _, hg]
        rfl


theorem cart_ttl_refresh_amended_witness :
    add_to_cart stC9 "u1" "p3" 2 = .ok stC9add ∧ ttlOf stC9add "u1" = some CART_TTL :=
  ⟨by rfl, cart_ttl_refresh_amended.1 stC9 stC9add "u1" "p3" 2 (by rfl)⟩


/-! ### PyNum and checkout-total lemmas -/

theorem PyNum.float_add (a : ℚ) (x : PyNum) : (PyNum.float a).add x = .float (a + x.val) := by
  cases x <;> rfl

theorem PyNum.val_mulInt (x : PyNum) (n : Int) : (x.mulInt n).val = x.val * n := by
  cases x <;> rfl

theorem total_foldl_eq (pp : List (String × PyNum)) (cart : List (String × Int)) :
    ∀ a : ℚ, cart.foldl (fun (acc : PyNum) pi => acc.add ((price_of pp pi.1).mulInt pi.2))
        (PyNum.float a) =
      .float (a + (cart.map (fun pi => (price_of pp pi.1).val * pi.2)).sum) := by
  induction cart with
  | nil => intro a; simp
  | cons hd tl ih =>
    intro a
    rw [List.foldl_cons, PyNum.float_add, PyNum.val_mulInt, ih, List.map_cons, List.sum_cons]
    exact congrArg PyNum.float (by ring)

theorem total_amount_of_eq (pp : List (String × PyNum)) (cart : List (String × Int)) :
    total_amount_of pp cart =
      .float ((cart.map (fun pi => (price_of pp pi.1).val * pi.2)).sum) := by
  unfold total_amount_of
  rw [total_foldl_eq, zero_add]

theorem price_of_fetch_isFloat (prods : List (String × ℚ)) (ids : List String) (pid : String) :
    (price_of (fetch_product_prices prods ids) pid).isFloat = true := by
  unfold price_of
  cases hl : lookupEntry (fetch_product_prices prods ids) pid with
  | none => rfl
  | some v =>
    have hmem := lookupEntry_mem hl
    unfold fetch_product_prices at hmem
    rcases List.mem_map.mp hmem with ⟨r, hr, heq⟩
    have hv : v = PyNum.toFloat (.decimal r.2) := by
      have := (Prod.mk.injEq _ _ _ _).mp heq
      exact this.2.symm
    rw [hv]
    rfl

/-! ### Checkout saga shape lemmas -/

theorem convert_of_empty (pgFail : Bool) (neoFailAt : Option Nat) (st : MarketState)
    (u oid od : String) (h : (redis_get_cart st.redis u).isEmpty) :
    convert_cart_to_order pgFail neoFailAt st u oid od = (st, .error .emptyCart) := by
  simp only [convert_cart_to_order]
  rw [if_pos h]

theorem convert_of_missing (pgFail : Bool) (neoFailAt : Option Nat) (st : MarketState)
    (u oid od : String) (hne : ¬ (redis_get_cart st.redis u).isEmpty)
    (hlen : (fetch_product_prices st.products
        ((redis_get_cart st.redis u).map (·.1))).length ≠
      ((redis_get_cart st.redis u).map (·.1)).length) :
    convert_cart_to_order pgFail neoFailAt st u oid od = (st, .error .productsMissing) := by
  simp only [convert_cart_to_order]
  rw [if_neg hne, if_pos hlen]

theorem convert_of_pgFail (neoFailAt : Option Nat) (st : MarketState)
    (u oid od : String) (hne : ¬ (redis_get_cart st.redis u).isEmpty)
    (hlen : (fetch_product_prices st.products
        ((redis_get_cart st.redis u).map (·.1))).length =
      ((redis_get_cart st.redis u).map (·.1)).length) :
    convert_cart_to_order true neoFailAt st u oid od = (st, .error .checkoutFailed) := by
  simp only [convert_cart_to_order]
  rw [if_neg hne, if_neg (fun hcon => hcon hlen), if_pos trivial]

theorem convert_of_neoFail (st : MarketState) (u oid od : String) (k : Nat)
    (hne : ¬ (redis_get_cart st.redis u).isEmpty)
    (hlen : (fetch_product_prices st.products
        ((redis_get_cart st.redis u).map (·.1))).length =
      ((redis_get_cart st.redis u).map (·.1)).length)
    (hk : k < (redis_get_cart st.redis u).length) :
    convert_cart_to_order false (some k) st u oid od =
      ({ st with
          orders := st.orders ++
            [⟨oid, u, od, total_amount_of (fetch_product_prices st.products
              ((redis_get_cart st.redis u).map (·.1))) (redis_get_cart st.redis u),
              "COMPLETED"⟩],
          order_items := st.order_items ++
            order_items_to_insert (fetch_product_prices st.products
              ((redis_get_cart st.redis u).map (·.1))) oid (redis_get_cart st.redis u),
          purchases := st.purchases ++
            purchase_edges u od ((redis_get_cart st.redis u).take k) },
       .error .storeUnavailable) := by
  simp only [convert_cart_to_order]
  rw [if_neg hne, if_neg (fun hcon => hcon hlen), if_neg Bool.false_ne_true]
  rw [if_pos hk]

theorem convert_of_success (st : MarketState) (u oid od : String)
    (hne : ¬ (redis_get_cart st.redis u).isEmpty)
    (hlen : (fetch_product_prices st.products
        ((redis_get_cart st.redis u).map (·.1))).length =
      ((redis_get_cart st.redis u).map (·.1)).length) :
    convert_cart_to_order false none st u oid od =
      ({ st with
          orders := st.orders ++
            [⟨oid, u, od, total_amount_of (fetch_product_prices st.products
              ((redis_get_cart st.redis u).map (·.1))) (redis_get_cart st.redis u),
              "COMPLETED"⟩],
          order_items := st.order_items ++
            order_items_to_insert (fetch_product_prices st.products
              ((redis_get_cart st.redis u).map (·.1))) oid (redis_get_cart st.redis u),
          purchases := st.purchases ++
            purchase_edges u od (redis_get_cart st.redis u),
          redis := redis_clear_cart st.redis u },
       .ok ⟨oid, total_amount_of (fetch_product_prices st.products
         ((redis_get_cart st.redis u).map (·.1))) (redis_get_cart st.redis u),
         (redis_get_cart st.redis u).length⟩) := by
  simp only [convert_cart_to_order]
  rw [if_neg hne, if_neg (fun hcon => hcon hlen), if_neg Bool.false_ne_true]

theorem convert_of_neo_overflow (st : MarketState) (u oid od : String) (k : Nat)
    (hne : ¬ (redis_get_cart st.redis u).isEmpty)
    (hlen : (fetch_product_prices st.products
        ((redis_get_cart st.redis u).map (·.1))).length =
      ((redis_get_cart st.redis u).map (·.1)).length)
    (hk : ¬ k < (redis_get_cart st.redis u).length) :
    convert_cart_to_order false (some k) st u oid od =
      ({ st with
          orders := st.orders ++
            [⟨oid, u, od, total_amount_of (fetch_product_prices st.products
              ((redis_get_cart st.redis u).map (·.1))) (redis_get_cart st.redis u),
              "COMPLETED"⟩],
          order_items := st.order_items ++
            order_items_to_insert (fetch_product_prices st.products
              ((redis_get_cart st.redis u).map (·.1))) oid (redis_get_cart st.redis u),
          purchases := st.purchases ++
            purchase_edges u od (redis_get_cart st.redis u),
          redis := redis_clear_cart st.redis u },
       .ok ⟨oid, total_amount_of (fetch_product_prices st.products
         ((redis_get_cart st.redis u).map (·.1))) (redis_get_cart st.redis u),
         (redis_get_cart st.redis u).length⟩) := by
  simp only [convert_cart_to_order]
  rw [if_neg hne, if_neg (fun hcon => hcon hlen), if_neg Bool.false_ne_true]
  rw [if_neg hk]

/-- C1: whenever the Record Store transaction of checkout fails, the entire
market state is unchanged — the cart is intact, field for field, and no
Order or OrderItem row was written — and the failure surfaces to the caller
as an error. Holds for every starting state, user and failure point of the
graph store. -/
theorem checkout_txn_failure_state_unchanged (st : MarketState) (u oid od : String)
    (neoFailAt : Option Nat) :
    (convert_cart_to_order true neoFailAt st u oid od).1 = st ∧
    ∃ e, (convert_cart_to_order true neoFailAt st u oid od).2 = .error e := by
  by_cases h1 : (redis_get_cart st.redis u).isEmpty
  · rw [convert_of_empty true neoFailAt st u oid od h1]
    exact ⟨rfl, ⟨.emptyCart, rfl⟩⟩
  · by_cases h2 : (fetch_product_prices st.products
        ((redis_get_cart st.redis u).map (·.1))).length =
      ((redis_get_cart st.redis u).map (·.1)).length
    · rw [convert_of_pgFail neoFailAt st u oid od h1 h2]
      exact ⟨rfl, ⟨.checkoutFailed, rfl⟩⟩
    · rw [convert_of_missing true neoFailAt st u oid od h1 h2]
      exact ⟨rfl, ⟨.productsMissing, rfl⟩⟩

/-! ### Resolvability counting (claim C3) -/

theorem length_filter_keys {β : Type} (xs : List (String × β)) (q : String → Bool) :
    (xs.filter (fun r => q r.1)).length = ((xs.map (·.1)).filter q).length := by
  induction xs with
  | nil => rfl
  | cons hd tl ih =>
    by_cases h : q hd.1 <;> simp [List.filter_cons, h, ih]

theorem nodup_filter_mem_length_eq_iff {A I : List String} (hA : A.Nodup) (hI : I.Nodup) :
    (A.filter (fun a => a ∈ I)).length = I.length ↔ ∀ i ∈ I, i ∈ A := by
  classical
  have h1 : (A.filter (fun a => a ∈ I)).toFinset = A.toFinset ∩ I.toFinset := by
    rw [List.toFinset_filter]
    ext x
    simp [List.mem_toFinset]
  have h2 : (A.filter (fun a => a ∈ I)).Nodup := hA.filter _
  have h3 : (A.filter (fun a => a ∈ I)).length = (A.toFinset ∩ I.toFinset).card := by
    rw [← List.toFinset_card_of_nodup h2, h1]
  have hIc : I.toFinset.card = I.length := List.toFinset_card_of_nodup hI
  constructor
  · intro h i hi
    have hcard : (A.toFinset ∩ I.toFinset).card = I.toFinset.card := by
      rw [← h3, h, hIc]
    have hsub : A.toFinset ∩ I.toFinset ⊆ I.toFinset := Finset.inter_subset_right
    have heq := Finset.eq_of_subset_of_card_le hsub (le_of_eq hcard.symm)
    have hsub2 : I.toFinset ⊆ A.toFinset := by
      rw [← heq]
      exact Finset.inter_subset_left
    exact List.mem_toFinset.mp (hsub2 (List.mem_toFinset.mpr hi))
  · intro h
    have hsub : I.toFinset ⊆ A.toFinset := fun x hx =>
      List.mem_toFinset.mpr (h x (List.mem_toFinset.mp hx))
    have heq : A.toFinset ∩ I.toFinset = I.toFinset := Finset.inter_eq_right.mpr hsub
    rw [h3, heq, hIc]

theorem fetch_product_prices_length_eq_iff {products : List (String × ℚ)} {ids : List String}
    (hP : (products.map (·.1)).Nodup) (hI : ids.Nodup) :
    (fetch_product_prices products ids).length = ids.length ↔
      ∀ pid ∈ ids, pid ∈ products.map (·.1) := by
  unfold fetch_product_prices
  rw [List.length_map, length_filter_keys products (fun a => a ∈ ids)]
  exact nodup_filter_mem_length_eq_iff hP hI

/-! ### Claim C3: ProductsMissing exactly on unresolvable cart lines -/

/-- C3: with a non-empty cart, checkout fails with the products-missing
ValueError exactly when some cart product id has no row in the products
table (under the real-world uniqueness of products primary keys and Redis
hash fields); and in that case nothing is written — the whole market state
is unchanged. Resolution is all-or-nothing: when every id resolves, this
error cannot occur. -/
theorem checkout_products_missing_iff
    (pgFail : Bool) (neoFailAt : Option Nat) (st : MarketState) (u oid od : String)
    (hP : (st.products.map (·.1)).Nodup)
    (hC : ((redis_get_cart st.redis u).map (·.1)).Nodup) :
    ((convert_cart_to_order pgFail neoFailAt st u oid od).2 = .error .productsMissing ↔
      redis_get_cart st.redis u ≠ [] ∧
        ∃ pid ∈ (redis_get_cart st.redis u).map (·.1), pid ∉ st.products.map (·.1))
    ∧ ((convert_cart_to_order pgFail neoFailAt st u oid od).2 = .error .productsMissing →
        (convert_cart_to_order pgFail neoFailAt st u oid od).1 = st) := by
  by_cases h1 : (redis_get_cart st.redis u).isEmpty
  · rw [convert_of_empty pgFail neoFailAt st u oid od h1]
    refine ⟨⟨fun hcon => ?_, fun hrhs => ?_⟩, fun _ => rfl⟩
    · simp at hcon
    · exact absurd (List.isEmpty_iff.mp h1) hrhs.1
  · by_cases h2 : (fetch_product_prices st.products
        ((redis_get_cart st.redis u).map (·.1))).length =
      ((redis_get_cart st.redis u).map (·.1)).length
    · have hall : ∀ pid ∈ (redis_get_cart st.redis u).map (·.1),
          pid ∈ st.products.map (·.1) :=
        (fetch_product_prices_length_eq_iff hP hC).mp h2
      have hnores : ¬ (redis_get_cart st.redis u ≠ [] ∧
          ∃ pid ∈ (redis_get_cart st.redis u).map (·.1),
            pid ∉ st.products.map (·.1)) := by
        rintro ⟨-, pid, hpid, hnot⟩
        exact hnot (hall pid hpid)
      cases pgFail with
      | true =>
        rw [convert_of_pgFail neoFailAt st u oid od h1 h2]
        refine ⟨⟨fun hcon => ?_, fun hrhs => absurd hrhs hnores⟩, fun _ => rfl⟩
        simp at hcon
      | false =>
        cases neoFailAt with
        | none =>
          rw [convert_of_success st u oid od h1 h2]
          refine ⟨⟨fun hcon => ?_, fun hrhs => absurd hrhs hnores⟩, fun hcon => ?_⟩
          · simp at hcon
          · simp at hcon
        | some k =>
          by_cases hk : k < (redis_get_cart st.redis u).length
          · rw [convert_of_neoFail st u oid od k h1 h2 hk]
            refine ⟨⟨fun hcon => ?_, fun hrhs => absurd hrhs hnores⟩, fun hcon => ?_⟩
            · simp at hcon
            · simp at hcon
          · rw [convert_of_neo_overflow st u oid od k h1 h2 hk]
            refine ⟨⟨fun hcon => ?_, fun hrhs => absurd hrhs hnores⟩, fun hcon => ?_⟩
            · simp at hcon
            · simp at hcon
    · rw [convert_of_missing pgFail neoFailAt st u oid od h1 h2]
      refine ⟨⟨fun _ => ⟨?_, ?_⟩, fun _ => rfl⟩, fun _ => rfl⟩
      · intro hnil
        exact h1 (by rw [hnil]; rfl)
      · have hnall : ¬ ∀ pid ∈ (redis_get_cart st.redis u).map (·.1),
            pid ∈ st.products.map (·.1) :=
          fun hall => h2 ((fetch_product_prices_length_eq_iff hP hC).mpr hall)
        push_neg at hnall
        exact hnall

theorem checkout_products_missing_witness :
    (stC3.products.map (·.1)).Nodup ∧
    ((redis_get_cart stC3.redis "u1").map (·.1)).Nodup ∧
    ((((convert_cart_to_order false none stC3 "u1" "o1" "d1").2 = .error .productsMissing ↔
        redis_get_cart stC3.redis "u1" ≠ [] ∧
          ∃ pid ∈ (redis_get_cart stC3.redis "u1").map (·.1),
            pid ∉ stC3.products.map (·.1))
      ∧ ((convert_cart_to_order false none stC3 "u1" "o1" "d1").2 = .error .productsMissing →
          (convert_cart_to_order false none stC3 "u1" "o1" "d1").1 = stC3))) :=
  ⟨by decide, by decide,
   checkout_products_missing_iff false none stC3 "u1" "o1" "d1" (by decide) (by decide)⟩

/-! ### Claim C4: order total equals the sum of its items -/

set_option maxHeartbeats 2000000 in
/-- C4: for every successful checkout the returned (and stored) total
equals the sum over the freshly inserted OrderItems of quantity times
price-at-purchase; and concretely, checkout of cart P1 x2 plus P2 x1 at
prices 10.00 and 5.00 yields total 25.00, item snapshots 10.00 and 5.00,
and an empty cart afterwards. -/
theorem checkout_total_equals_sum_of_items :
    (∀ (st : MarketState) (u oid od : String) (st' : MarketState) (res : CheckoutResult),
        convert_cart_to_order false none st u oid od = (st', .ok res) →
        ∃ newItems : List OrderItemRow,
          st'.order_items = st.order_items ++ newItems ∧
          st'.orders = st.orders ++ [⟨oid, u, od, res.total_amount, "COMPLETED"⟩] ∧
          res.total_amount.val =
            (newItems.map (fun i => (i.quantity : ℚ) * i.price_at_purchase.val)).sum)
    ∧ ((convert_cart_to_order false none stC4 "u1" "o1" "d1").2 =
        .ok ⟨"o1", .float 25, 2⟩ ∧
      (convert_cart_to_order false none stC4 "u1" "o1" "d1").1.order_items =
        [⟨"o1", "P1", 2, .float 10⟩, ⟨"o1", "P2", 1, .float 5⟩] ∧
      redis_get_cart (convert_cart_to_order false none stC4 "u1" "o1" "d1").1.redis "u1" = []) := by
  constructor
  · intro st u oid od st' res h
    by_cases h1 : (redis_get_cart st.redis u).isEmpty
    · rw [convert_of_empty false none st u oid od h1] at h
      simp at h
    · by_cases h2 : (fetch_product_prices st.products
          ((redis_get_cart st.redis u).map (·.1))).length =
        ((redis_get_cart st.redis u).map (·.1)).length
      · rw [convert_of_success st u oid od h1 h2] at h
        have hst := congrArg Prod.fst h
        have hres := congrArg Prod.snd h
        simp only at hst hres
        replace hres := (Except.ok.injEq _ _).mp hres
        subst hst
        subst hres
        refine ⟨order_items_to_insert (fetch_product_prices st.products
          ((redis_get_cart st.redis u).map (·.1))) oid (redis_get_cart st.redis u),
          rfl, rfl, ?_⟩
        show (total_amount_of (fetch_product_prices st.products
          ((redis_get_cart st.redis u).map (·.1))) (redis_get_cart st.redis u)).val = _
        rw [total_amount_of_eq]
        simp only [PyNum.val, order_items_to_insert, List.map_map]
        refine congrArg List.sum (List.map_congr_left ?_)
        intro pi hpi
        simp [Function.comp, mul_comm]
      · rw [convert_of_missing false none st u oid od h1 h2] at h
        simp at h
  · refine ⟨?_, ?_, ?_⟩
    · simp only [convert_cart_to_order, stC4, fetch_product_prices, price_of, order_items_to_insert,
      total_amount_of, purchase_edges, redis_get_cart, redis_clear_cart, hgetall, getHash,
      delKey, lookupEntry, setEntry, delEntry, PyNum.add, PyNum.mulInt, PyNum.toFloat,
      PyNum.val, List.filterMap, List.foldl, List.find?, List.filter, List.isEmpty,
      Option.map, Option.getD, List.map, List.length, List.take, stC4after]
      try norm_num
      try simp
      try norm_num
    · simp only [convert_cart_to_order, stC4, fetch_product_prices, price_of, order_items_to_insert,
      total_amount_of, purchase_edges, redis_get_cart, redis_clear_cart, hgetall, getHash,
      delKey, lookupEntry, setEntry, delEntry, PyNum.add, PyNum.mulInt, PyNum.toFloat,
      PyNum.val, List.filterMap, List.foldl, List.find?, List.filter, List.isEmpty,
      Option.map, Option.getD, List.map, List.length, List.take, stC4after]
      try norm_num
      try simp
      try norm_num
    · simp only [convert_cart_to_order, stC4, fetch_product_prices, price_of, order_items_to_insert,
      total_amount_of, purchase_edges, redis_get_cart, redis_clear_cart, hgetall, getHash,
      delKey, lookupEntry, setEntry, delEntry, PyNum.add, PyNum.mulInt, PyNum.toFloat,
      PyNum.val, List.filterMap, List.foldl, List.find?, List.filter, List.isEmpty,
      Option.map, Option.getD, List.map, List.length, List.take, stC4after]
      try norm_num
      try simp
      try norm_num

set_option maxHeartbeats 2000000 in
theorem checkout_total_equals_sum_witness :
    convert_cart_to_order false none stC4 "u1" "o1" "d1" = (stC4after, .ok ⟨"o1", .float 25, 2⟩) ∧
    ∃ newItems : List OrderItemRow,
      stC4after.order_items = stC4.order_items ++ newItems ∧
      stC4after.orders = stC4.orders ++
        [⟨"o1", "u1", "d1", (⟨"o1", PyNum.float 25, 2⟩ : CheckoutResult).total_amount,
          "COMPLETED"⟩] ∧
      (⟨"o1", PyNum.float 25, 2⟩ : CheckoutResult).total_amount.val =
        (newItems.map (fun i => (i.quantity : ℚ) * i.price_at_purchase.val)).sum := by
  have hconv : convert_cart_to_order false none stC4 "u1" "o1" "d1" =
      (stC4after, .ok ⟨"o1", .float 25, 2⟩) := by
    simp only [convert_cart_to_order, stC4, fetch_product_prices, price_of, order_items_to_insert,
      total_amount_of, purchase_edges, redis_get_cart, redis_clear_cart, hgetall, getHash,
      delKey, lookupEntry, setEntry, delEntry, PyNum.add, PyNum.mulInt, PyNum.toFloat,
      PyNum.val, List.filterMap, List.foldl, List.find?, List.filter, List.isEmpty,
      Option.map, Option.getD, List.map, List.length, List.take, stC4after]
    try norm_num
    try simp
    try norm_num
  exact ⟨hconv, checkout_total_equals_sum_of_items.1 stC4 "u1" "o1" "d1" stC4after
    ⟨"o1", PyNum.float 25, 2⟩ hconv⟩

/-! ### Claim C2: the Neo4j step of checkout is not absorbed -/

set_option maxHeartbeats 2000000 in
/-- C2 counterexample: cart P1 x2, P2 x1, both products priced; the Record
Store transaction commits (the order row with total 25.00 exists
afterwards), and the first PurchaseEdge write fails. The claim says the
failure is absorbed, the cart cleared and the order returned — but the
saga surfaces the driver error and the cart still holds both lines. -/
theorem checkout_neo_failure_counterexample :
    (convert_cart_to_order false (some 0) stC4 "u1" "o1" "d1").2 = .error .storeUnavailable ∧
    redis_get_cart (convert_cart_to_order false (some 0) stC4 "u1" "o1" "d1").1.redis "u1" =
      [("P1", 2), ("P2", 1)] ∧
    (convert_cart_to_order false (some 0) stC4 "u1" "o1" "d1").1.orders =
      [⟨"o1", "u1", "d1", .float 25, "COMPLETED"⟩] := by
  have hconv : convert_cart_to_order false (some 0) stC4 "u1" "o1" "d1" =
      (stC4neo, .error .storeUnavailable) := by
    simp only [convert_cart_to_order, stC4, stC4neo, fetch_product_prices, price_of,
      order_items_to_insert, total_amount_of, purchase_edges, redis_get_cart,
      redis_clear_cart, hgetall, getHash, delKey, lookupEntry, setEntry, delEntry,
      PyNum.add, PyNum.mulInt, PyNum.toFloat, PyNum.val, List.filterMap, List.foldl,
      List.find?, List.filter, List.isEmpty, Option.map, Option.getD, List.map,
      List.length, List.take]
    try norm_num
    try simp
    try norm_num
  exact ⟨by rw [hconv], by rw [hconv]; decide, by rw [hconv]; rfl⟩


/-- C2 amended: after the Record Store transaction has committed, a failure
on the (k+1)-st PurchaseEdge write propagates to the caller as the driver
error — the saga does not proceed, the cart is not cleared and no result is
returned — while the committed Order and OrderItem rows remain, and only
the k edges before the failing one were written. -/
theorem checkout_neo_failure_propagates (st : MarketState) (u oid od : String) (k : Nat)
    (hne : redis_get_cart st.redis u ≠ [])
    (hres : (fetch_product_prices st.products
        ((redis_get_cart st.redis u).map (·.1))).length =
      ((redis_get_cart st.redis u).map (·.1)).length)
    (hk : k < (redis_get_cart st.redis u).length) :
    (convert_cart_to_order false (some k) st u oid od).2 = .error .storeUnavailable ∧
    (convert_cart_to_order false (some k) st u oid od).1.redis = st.redis ∧
    (convert_cart_to_order false (some k) st u oid od).1.orders =
      st.orders ++ [⟨oid, u, od, total_amount_of (fetch_product_prices st.products
        ((redis_get_cart st.redis u).map (·.1))) (redis_get_cart st.redis u),
        "COMPLETED"⟩] ∧
    (convert_cart_to_order false (some k) st u oid od).1.order_items =
      st.order_items ++ order_items_to_insert (fetch_product_prices st.products
        ((redis_get_cart st.redis u).map (·.1))) oid (redis_get_cart st.redis u) ∧
    (convert_cart_to_order false (some k) st u oid od).1.purchases =
      st.purchases ++ purchase_edges u od ((redis_get_cart st.redis u).take k) := by
  have hne' : ¬ (redis_get_cart st.redis u).isEmpty := by
    intro hemp
    exact hne (List.isEmpty_iff.mp hemp)
  rw [convert_of_neoFail st u oid od k hne' hres hk]
  exact ⟨rfl, rfl, rfl, rfl, rfl⟩

theorem checkout_neo_failure_propagates_witness :
    redis_get_cart stC4.redis "u1" ≠ [] ∧
    (fetch_product_prices stC4.products
        ((redis_get_cart stC4.redis "u1").map (·.1))).length =
      ((redis_get_cart stC4.redis "u1").map (·.1)).length ∧
    0 < (redis_get_cart stC4.redis "u1").length ∧
    ((convert_cart_to_order false (some 0) stC4 "u1" "o1" "d1").2 = .error .storeUnavailable ∧
     (convert_cart_to_order false (some 0) stC4 "u1" "o1" "d1").1.redis = stC4.redis ∧
     (convert_cart_to_order false (some 0) stC4 "u1" "o1" "d1").1.orders =
       stC4.orders ++ [⟨"o1", "u1", "d1", total_amount_of (fetch_product_prices stC4.products
         ((redis_get_cart stC4.redis "u1").map (·.1))) (redis_get_cart stC4.redis "u1"),
         "COMPLETED"⟩] ∧
     (convert_cart_to_order false (some 0) stC4 "u1" "o1" "d1").1.order_items =
       stC4.order_items ++ order_items_to_insert (fetch_product_prices stC4.products
         ((redis_get_cart stC4.redis "u1").map (·.1))) "o1" (redis_get_cart stC4.redis "u1") ∧
     (convert_cart_to_order false (some 0) stC4 "u1" "o1" "d1").1.purchases =
       stC4.purchases ++ purchase_edges "u1" "d1" ((redis_get_cart stC4.redis "u1").take 0)) :=
  ⟨by decide, by decide, by decide,
   checkout_neo_failure_propagates stC4 "u1" "o1" "d1" 0 (by decide) (by decide) (by decide)⟩

/-! ### Claim C7: money is carried as binary floats, not decimals -/

set_option maxHeartbeats 2000000 in
/-- C7 counterexample: on the concrete checkout of stC4, the stored order
total and both stored price-at-purchase snapshots carry the binary-float
representation (the code computes float(price) and accumulates from the
float literal 0.0), refuting the claim that money is never represented as
a binary float on the checkout path. -/
theorem money_never_float_counterexample :
    ((convert_cart_to_order false none stC4 "u1" "o1" "d1").1.orders.map
        (fun r => r.total_price.isFloat)) = [true] ∧
    ((convert_cart_to_order false none stC4 "u1" "o1" "d1").1.order_items.map
        (fun i => i.price_at_purchase.isFloat)) = [true, true] ∧
    ¬ (∀ r ∈ (convert_cart_to_order false none stC4 "u1" "o1" "d1").1.orders,
        r.total_price.isFloat = false) := by
  have horders : (convert_cart_to_order false none stC4 "u1" "o1" "d1").1.orders =
      [⟨"o1", "u1", "d1", .float 25, "COMPLETED"⟩] := by
    simp only [convert_cart_to_order, stC4, fetch_product_prices, price_of, order_items_to_insert,
      total_amount_of, purchase_edges, redis_get_cart, redis_clear_cart, hgetall, getHash,
      delKey, lookupEntry, setEntry, delEntry, PyNum.add, PyNum.mulInt, PyNum.toFloat,
      PyNum.val, List.filterMap, List.foldl, List.find?, List.filter, List.isEmpty,
      Option.map, Option.getD, List.map, List.length, List.take, stC4after]
    try norm_num
    try simp
    try norm_num
  have hitems : (convert_cart_to_order false none stC4 "u1" "o1" "d1").1.order_items =
      [⟨"o1", "P1", 2, .float 10⟩, ⟨"o1", "P2", 1, .float 5⟩] := by
    simp only [convert_cart_to_order, stC4, fetch_product_prices, price_of, order_items_to_insert,
      total_amount_of, purchase_edges, redis_get_cart, redis_clear_cart, hgetall, getHash,
      delKey, lookupEntry, setEntry, delEntry, PyNum.add, PyNum.mulInt, PyNum.toFloat,
      PyNum.val, List.filterMap, List.foldl, List.find?, List.filter, List.isEmpty,
      Option.map, Option.getD, List.map, List.length, List.take, stC4after]
    try norm_num
    try simp
    try norm_num
  refine ⟨by rw [horders]; rfl, by rw [hitems]; rfl, ?_⟩
  intro hall
  have h := hall ⟨"o1", "u1", "d1", .float 25, "COMPLETED"⟩
    (by rw [horders]; exact List.mem_singleton_self _)
  simp [PyNum.isFloat] at h

/-- C7 amended: money is stored as DECIMAL in the Record Store schema, but
the application converts it to binary-float representation on both audited
paths: every successful checkout returns and stores a float total and float
price-at-purchase snapshots (total accumulated from the literal 0.0 over
float(price) values), and get_product_from_db converts the fetched price
with float(...) whenever the row exists. -/
theorem money_float_representation_amended :
    (∀ (st : MarketState) (u oid od : String) (st' : MarketState) (res : CheckoutResult),
        convert_cart_to_order false none st u oid od = (st', .ok res) →
        res.total_amount.isFloat = true ∧
        ∀ i ∈ st'.order_items, i ∉ st.order_items → i.price_at_purchase.isFloat = true)
    ∧ (∀ (products : List (String × ℚ)) (pid : String) (row : ProductRow),
        get_product_from_db products pid = some row → row.price.isFloat = true) := by
  constructor
  · intro st u oid od st' res h
    by_cases h1 : (redis_get_cart st.redis u).isEmpty
    · rw [convert_of_empty false none st u oid od h1] at h
      simp at h
    · by_cases h2 : (fetch_product_prices st.products
          ((redis_get_cart st.redis u).map (·.1))).length =
        ((redis_get_cart st.redis u).map (·.1)).length
      · rw [convert_of_success st u oid od h1 h2] at h
        have hst := congrArg Prod.fst h
        have hres := congrArg Prod.snd h
        simp only at hst hres
        replace hres := (Except.ok.injEq _ _).mp hres
        subst hst
        subst hres
        constructor
        · show (total_amount_of (fetch_product_prices st.products
            ((redis_get_cart st.redis u).map (·.1))) (redis_get_cart st.redis u)).isFloat = true
          rw [total_amount_of_eq]
          rfl
        · intro i hi hnot
          have hi' : i ∈ st.order_items ++ order_items_to_insert
              (fetch_product_prices st.products ((redis_get_cart st.redis u).map (·.1)))
              oid (redis_get_cart st.redis u) := hi
          rcases List.mem_append.mp hi' with hold | hnew
          · exact absurd hold hnot
          · unfold order_items_to_insert at hnew
            rcases List.mem_map.mp hnew with ⟨pi, hpi, heq⟩
            rw [← heq]
            exact price_of_fetch_isFloat st.products
              ((redis_get_cart st.redis u).map (·.1)) pi.1
      · rw [convert_of_missing false none st u oid od h1 h2] at h
        simp at h
  · intro products pid row h
    unfold get_product_from_db at h
    rcases Option.map_eq_some'.mp h with ⟨q, hq, hrow⟩
    rw [← hrow]
    rfl

set_option maxHeartbeats 2000000 in
theorem money_float_representation_witness :
    convert_cart_to_order false none stC4 "u1" "o1" "d1" = (stC4after, .ok ⟨"o1", .float 25, 2⟩) ∧
    ((⟨"o1", PyNum.float 25, 2⟩ : CheckoutResult).total_amount.isFloat = true ∧
      ∀ i ∈ stC4after.order_items, i ∉ stC4.order_items →
        i.price_at_purchase.isFloat = true) ∧
    (get_product_from_db [("P1", 10)] "P1" = some ⟨"P1", PyNum.float 10⟩ ∧
      (⟨"P1", PyNum.float 10⟩ : ProductRow).price.isFloat = true) := by
  have hconv : convert_cart_to_order false none stC4 "u1" "o1" "d1" =
      (stC4after, .ok ⟨"o1", .float 25, 2⟩) := by
    simp only [convert_cart_to_order, stC4, fetch_product_prices, price_of, order_items_to_insert,
      total_amount_of, purchase_edges, redis_get_cart, redis_clear_cart, hgetall, getHash,
      delKey, lookupEntry, setEntry, delEntry, PyNum.add, PyNum.mulInt, PyNum.toFloat,
      PyNum.val, List.filterMap, List.foldl, List.find?, List.filter, List.isEmpty,
      Option.map, Option.getD, List.map, List.length, List.take, stC4after]
    try norm_num
    try simp
    try norm_num
  refine ⟨hconv, money_float_representation_amended.1 stC4 "u1" "o1" "d1" stC4after
    ⟨"o1", PyNum.float 25, 2⟩ hconv, rfl,
    money_float_representation_amended.2 [("P1", 10)] "P1" ⟨"P1", PyNum.float 10⟩ rfl⟩

/-! ### Claim C5: fingerprint ignores parameter insertion order -/

/-- C5: the cache key derived by _generate_cache_key — sort the (name,
value) pairs, join name=value with the ampersand delimiter, digest, prefix
the namespace — is identical for any two parameter lists that hold the same
pairs in different insertion orders; for every namespace and every digest
function. -/
theorem fingerprint_insertion_order_invariant
    (digest : String → String) (ns : String) (P1 P2 : List (String × String))
    (hperm : P1.Perm P2) :
    generate_cache_key digest ns P1 = generate_cache_key digest ns P2 := by
  unfold generate_cache_key
  have hsorted : List.insertionSort pairLe P1 = List.insertionSort pairLe P2 :=
    List.eq_of_perm_of_sorted
      ((List.perm_insertionSort pairLe P1).trans
        (hperm.trans (List.perm_insertionSort pairLe P2).symm))
      (List.sorted_insertionSort pairLe P1)
      (List.sorted_insertionSort pairLe P2)
  rw [hsorted]

theorem fingerprint_insertion_order_witness :
    ([("query", "wooden"), ("top_k", "10")] : List (String × String)).Perm
      [("top_k", "10"), ("query", "wooden")] ∧
    generate_cache_key (fun s => s) "semantic_search"
        [("query", "wooden"), ("top_k", "10")] =
      generate_cache_key (fun s => s) "semantic_search"
        [("top_k", "10"), ("query", "wooden")] :=
  ⟨List.Perm.swap _ _ _,
   fingerprint_insertion_order_invariant (fun s => s) "semantic_search" _ _
     (List.Perm.swap _ _ _)⟩

/-! ### Claim C6: repeated semantic search is a miss then a hit -/

theorem lookupEntry_incr_self (xs : List (String × Int)) (name : String) :
    lookupEntry (increment_cache_metric xs name) name =
      some ((lookupEntry xs name).getD 0 + 1) := by
  unfold increment_cache_metric
  cases h : lookupEntry xs name with
  | none => rw [lookupEntry_setEntry_self]; simp
  | some n => rw [lookupEntry_setEntry_self]; simp

theorem lookupEntry_incr_ne (xs : List (String × Int)) (name other : String)
    (h : name ≠ other) :
    lookupEntry (increment_cache_metric xs name) other = lookupEntry xs other := by
  unfold increment_cache_metric
  cases hl : lookupEntry xs name
  · exact lookupEntry_setEntry_ne _ _ _ _ h
  · exact lookupEntry_setEntry_ne _ _ _ _ h

/-- C6: starting from a cache without the derived key, the first
natural_language_search call bumps the semantic_misses counter by exactly
one (hits untouched), issues exactly one Record Store query, and populates
the cache under that key with its result; the immediately repeated
identical call bumps semantic_hits by exactly one (misses untouched),
returns the same result, and issues no further Record Store query. -/
theorem semantic_search_miss_then_hit
    (digest : String → String) (dbq : SearchParams → List DbRow) (p : SearchParams)
    (st : SearchState)
    (hmiss : lookupEntry st.cache
      (generate_cache_key digest "semantic_search" (active_params p)) = none) :
    (natural_language_search digest dbq p st).1.db_queries = st.db_queries + 1 ∧
    lookupEntry (natural_language_search digest dbq p st).1.metrics "semantic_misses" =
      some ((lookupEntry st.metrics "semantic_misses").getD 0 + 1) ∧
    lookupEntry (natural_language_search digest dbq p st).1.metrics "semantic_hits" =
      lookupEntry st.metrics "semantic_hits" ∧
    lookupEntry (natural_language_search digest dbq p st).1.cache
        (generate_cache_key digest "semantic_search" (active_params p)) =
      some (natural_language_search digest dbq p st).2 ∧
    (natural_language_search digest dbq p (natural_language_search digest dbq p st).1).2 =
      (natural_language_search digest dbq p st).2 ∧
    (natural_language_search digest dbq p
        (natural_language_search digest dbq p st).1).1.db_queries =
      (natural_language_search digest dbq p st).1.db_queries ∧
    lookupEntry (natural_language_search digest dbq p
        (natural_language_search digest dbq p st).1).1.metrics "semantic_hits" =
      some ((lookupEntry (natural_language_search digest dbq p st).1.metrics
        "semantic_hits").getD 0 + 1) ∧
    lookupEntry (natural_language_search digest dbq p
        (natural_language_search digest dbq p st).1).1.metrics "semantic_misses" =
      lookupEntry (natural_language_search digest dbq p st).1.metrics "semantic_misses" := by
  have hkey : lookupEntry (setEntry st.cache
      (generate_cache_key digest "semantic_search" (active_params p))
      ((dbq p).map convert_row))
      (generate_cache_key digest "semantic_search" (active_params p)) =
      some ((dbq p).map convert_row) := lookupEntry_setEntry_self _ _ _
  refine ⟨?_, ?_, ?_, ?_, ?_, ?_, ?_, ?_⟩ <;>
    simp only [natural_language_search, hmiss, hkey] <;>
    first
      | rfl
      | trivial
      | exact lookupEntry_incr_self _ _
      | exact lookupEntry_incr_ne _ _ _ (by decide)

theorem semantic_search_miss_then_hit_witness :
    lookupEntry (SearchState.mk [] [] 0).cache
      (generate_cache_key (fun s => s) "semantic_search"
        (active_params ⟨"q", none, none, none, 10⟩)) = none ∧
    ((natural_language_search (fun s => s) (fun _ => []) ⟨"q", none, none, none, 10⟩
        (SearchState.mk [] [] 0)).1.db_queries = (SearchState.mk [] [] 0).db_queries + 1 ∧
     lookupEntry (natural_language_search (fun s => s) (fun _ => [])
        ⟨"q", none, none, none, 10⟩ (SearchState.mk [] [] 0)).1.metrics "semantic_misses" =
       some ((lookupEntry (SearchState.mk [] [] 0).metrics "semantic_misses").getD 0 + 1) ∧
     lookupEntry (natural_language_search (fun s => s) (fun _ => [])
        ⟨"q", none, none, none, 10⟩ (SearchState.mk [] [] 0)).1.metrics "semantic_hits" =
       lookupEntry (SearchState.mk [] [] 0).metrics "semantic_hits" ∧
     lookupEntry (natural_language_search (fun s => s) (fun _ => [])
        ⟨"q", none, none, none, 10⟩ (SearchState.mk [] [] 0)).1.cache
         (generate_cache_key (fun s => s) "semantic_search"
           (active_params ⟨"q", none, none, none, 10⟩)) =
       some (natural_language_search (fun s => s) (fun _ => [])
         ⟨"q", none, none, none, 10⟩ (SearchState.mk [] [] 0)).2 ∧
     (natural_language_search (fun s => s) (fun _ => []) ⟨"q", none, none, none, 10⟩
        (natural_language_search (fun s => s) (fun _ => [])
          ⟨"q", none, none, none, 10⟩ (SearchState.mk [] [] 0)).1).2 =
       (natural_language_search (fun s => s) (fun _ => [])
         ⟨"q", none, none, none, 10⟩ (SearchState.mk [] [] 0)).2 ∧
     (natural_language_search (fun s => s) (fun _ => []) ⟨"q", none, none, none, 10⟩
        (natural_language_search (fun s => s) (fun _ => [])
          ⟨"q", none, none, none, 10⟩ (SearchState.mk [] [] 0)).1).1.db_queries =
       (natural_language_search (fun s => s) (fun _ => [])
         ⟨"q", none, none, none, 10⟩ (SearchState.mk [] [] 0)).1.db_queries ∧
     lookupEntry (natural_language_search (fun s => s) (fun _ => [])
        ⟨"q", none, none, none, 10⟩
        (natural_language_search (fun s => s) (fun _ => [])
          ⟨"q", none, none, none, 10⟩ (SearchState.mk [] [] 0)).1).1.metrics "semantic_hits" =
       some ((lookupEntry (natural_language_search (fun s => s) (fun _ => [])
         ⟨"q", none, none, none, 10⟩ (SearchState.mk [] [] 0)).1.metrics
           "semantic_hits").getD 0 + 1) ∧
     lookupEntry (natural_language_search (fun s => s) (fun _ => [])
        ⟨"q", none, none, none, 10⟩
        (natural_language_search (fun s => s) (fun _ => [])
          ⟨"q", none, none, none, 10⟩ (SearchState.mk [] [] 0)).1).1.metrics
          "semantic_misses" =
       lookupEntry (natural_language_search (fun s => s) (fun _ => [])
         ⟨"q", none, none, none, 10⟩ (SearchState.mk [] [] 0)).1.metrics "semantic_misses") :=
  ⟨rfl, semantic_search_miss_then_hit (fun s => s) (fun _ => [])
    ⟨"q", none, none, none, 10⟩ (SearchState.mk [] [] 0) rfl⟩

/-! ### Claim C10: product ids without a row are never negatively cached -/

/-- C10: for a product id with no row in the products table and no cache
entry, get_product_by_id returns an absent result (no exception path
exists in this embedding), writes nothing to the cache, does not touch the
hot-products ranking or view edges, and issues one database query; the
repeated call finds the cache still empty for that id and queries the
database again. -/
theorem product_not_found_never_cached
    (st : ProductReadState) (pid : String) (uid : Option String)
    (hdb : lookupEntry st.products pid = none)
    (hc : lookupEntry st.cache pid = none) :
    (get_product_by_id st pid uid).2 = none ∧
    (get_product_by_id st pid uid).1.cache = st.cache ∧
    (get_product_by_id st pid uid).1.hot_scores = st.hot_scores ∧
    (get_product_by_id st pid uid).1.views = st.views ∧
    (get_product_by_id st pid uid).1.db_queries = st.db_queries + 1 ∧
    (get_product_by_id (get_product_by_id st pid uid).1 pid uid).2 = none ∧
    (get_product_by_id (get_product_by_id st pid uid).1 pid uid).1.db_queries =
      st.db_queries + 2 := by
  have hrow : get_product_from_db st.products pid = none := by
    unfold get_product_from_db
    rw [hdb]
    rfl
  refine ⟨?_, ?_, ?_, ?_, ?_, ?_, ?_⟩ <;>
    simp only [get_product_by_id, hc, hrow]

theorem product_not_found_never_cached_witness :
    lookupEntry stP10.products "NOPE" = none ∧
    lookupEntry stP10.cache "NOPE" = none ∧
    ((get_product_by_id stP10 "NOPE" none).2 = none ∧
     (get_product_by_id stP10 "NOPE" none).1.cache = stP10.cache ∧
     (get_product_by_id stP10 "NOPE" none).1.hot_scores = stP10.hot_scores ∧
     (get_product_by_id stP10 "NOPE" none).1.views = stP10.views ∧
     (get_product_by_id stP10 "NOPE" none).1.db_queries = stP10.db_queries + 1 ∧
     (get_product_by_id (get_product_by_id stP10 "NOPE" none).1 "NOPE" none).2 = none ∧
     (get_product_by_id (get_product_by_id stP10 "NOPE" none).1 "NOPE" none).1.db_queries =
       stP10.db_queries + 2) :=
  ⟨rfl, rfl, product_not_found_never_cached stP10 "NOPE" none rfl rfl⟩

end ArtisanMarket
